import Mathlib

/-!
Verification development for the plugin-management backend of
homebridge-config-ui-x (`PluginsService`, `src/unnamed/part_000`).

The service is shallowly embedded: filesystem and network effects are
modelled as explicit environment functions (`readdir`, `manifestAt`,
`registry`, ...), promises as plain values, and thrown exceptions as
`Option`/`Except` values.  Each definition mirrors the corresponding
TypeScript function; line references point into `src/unnamed/part_000`.
-/

/-- A semantic version (release versions `major.minor.patch`; prerelease
tags are outside the scope of the claims). -/
structure SemVer where
  major : Nat
  minor : Nat
  patch : Nat
deriving DecidableEq, Repr

/-- `semver.lt`: strict lexicographic comparison of release versions. -/
def semverLt (a b : SemVer) : Bool :=
  decide (a.major < b.major ∨ (a.major = b.major ∧
    (a.minor < b.minor ∨ (a.minor = b.minor ∧ a.patch < b.patch))))

/-- `s.indexOf(pre) === 0`, i.e. `pre` is a prefix of `s` (kernel-reducible
string prefix test on the underlying character lists). -/
def strStartsWith (s pre : String) : Bool :=
  pre.data.isPrefixOf s.data

/-- Lexicographic comparison of character lists by code point; used to model
the ascending string order of lodash `orderBy`. -/
def charListLe : List Char → List Char → Bool
  | [], _ => true
  | _ :: _, [] => false
  | a :: as, b :: bs =>
    if a.toNat < b.toNat then true
    else if b.toNat < a.toNat then false
    else charListLe as bs

/-- String order used by the result sorting (`name` ascending). -/
def strLe (a b : String) : Bool := charListLe a.data b.data

/-- The `links` object attached to a plugin record (lines 88-92). -/
structure Links where
  npm : Option String := none
  homepage : Option String := none
  bugs : Option String := none
deriving DecidableEq, Repr

/-- The `HomebridgePlugin` interface (lines 76-94).  Optional TS fields are
`Option`s (`none` = `undefined`/`null`).  The presentation-only fields
`description` and `lastUpdated`'s URL-stripping are not needed by any claim;
`description` is omitted, `lastUpdated` is carried verbatim. -/
structure HomebridgePlugin where
  name : String
  certifiedPlugin : Bool := false
  publicPackage : Option Bool := none
  installedVersion : Option SemVer := none
  latestVersion : Option SemVer := none
  lastUpdated : Option String := none
  updateAvailable : Option Bool := none
  installPath : Option String := none
  globalInstall : Option Bool := none
  settingsSchema : Option Bool := none
  links : Links := {}
  author : Option String := none
deriving DecidableEq, Repr

/-- A parsed `package.json` manifest (the fields the service reads). -/
structure PackageJson where
  name : String
  keywords : Option (List String) := none
  version : Option SemVer := none
deriving DecidableEq, Repr

/-- One entry of `getInstalledModules` (line 503): a child directory `name`
of a base path `path`, with `installPath = path/name`. -/
structure ModuleRef where
  name : String
  path : String
  installPath : String
deriving DecidableEq, Repr

/-- The registry document fields read by `getPluginFromNpm` (lines 605-627). -/
structure RegistryPkg where
  latest : SemVer
  homepage : Option String := none
  bugsUrl : Option String := none
  maintainers : List String := []
deriving DecidableEq, Repr

/-- Environment of the discovery pipeline: configuration plus the
filesystem and network effects it performs.
`basePaths` models `this.paths = this.getBasePaths()`;
`manifestAt p` models `fs.readJson(path.join(p, 'package.json'))`
(`none` when the file is missing or unparsable, i.e. the read throws);
`registry name` models `rp.get('https://registry.npmjs.org/<name>')`
(`none` when the request throws: network failure or 404);
`schemaExistsAt p n` models `fs.pathExists(path.resolve(p, n, 'config.schema.json'))`. -/
structure DiscoveryEnv where
  customPluginPath : Option String := none
  basePaths : List String := []
  readdir : String → List String := fun _ => []
  manifestAt : String → Option PackageJson := fun _ => none
  registry : String → Option RegistryPkg := fun _ => none
  schemaExistsAt : String → String → Bool := fun _ _ => false

/-- POSIX `path.join` of a directory and a child name. -/
def pathJoin (dir child : String) : String := dir ++ "/" ++ child

/-- The empty `links` object `{}` assigned in the catch branch (line 624). -/
def emptyLinks : Links := {}

/-- `getPluginFromNpm` (lines 605-627): enrich a plugin record with registry
data.  When the registry request throws (network failure or 404), or when
`semver.lt` throws because `installedVersion` is `null`, the catch block
(lines 617-625) degrades the record instead of propagating the error. -/
def getPluginFromNpm (registry : String → Option RegistryPkg)
    (plugin : HomebridgePlugin) : HomebridgePlugin :=
  match registry plugin.name with
  | none =>
    -- catch: rp.get threw (line 607)
    { plugin with publicPackage := some false, latestVersion := none,
                  updateAvailable := some false, links := emptyLinks }
  | some pkg =>
    match plugin.installedVersion with
    | none =>
      -- `semver.lt(null, latest)` (line 610) throws; same catch block runs,
      -- overwriting the fields assigned on lines 608-609
      { plugin with publicPackage := some false, latestVersion := none,
                    updateAvailable := some false, links := emptyLinks }
    | some v =>
      { plugin with
          publicPackage := some true,
          latestVersion := some pkg.latest,
          updateAvailable := some (semverLt v pkg.latest),
          links := { npm := some ("https://www.npmjs.com/package/" ++ plugin.name),
                     homepage := pkg.homepage,
                     bugs := pkg.bugsUrl },
          author := pkg.maintainers.head? }

/-- `parsePackageJson` (lines 586-599): build a record from a manifest and
the containing base path, then enrich it via `getPluginFromNpm`. -/
def parsePackageJson (env : DiscoveryEnv) (pjson : PackageJson)
    (installPath : String) : HomebridgePlugin :=
  getPluginFromNpm env.registry
    { name := pjson.name,
      certifiedPlugin := strStartsWith pjson.name "@homebridge/homebridge-",
      installedVersion :=
        if installPath ≠ "" then some (pjson.version.getD ⟨0, 0, 1⟩) else none,
      globalInstall := some (!(env.customPluginPath == some installPath)),
      settingsSchema := some (env.schemaExistsAt installPath pjson.name),
      installPath := some installPath }

/-- `getInstalledModules` (lines 503-517): every immediate child of every
base path becomes a candidate module reference. -/
def getInstalledModules (env : DiscoveryEnv) : List ModuleRef :=
  env.basePaths.flatMap fun requiredPath =>
    (env.readdir requiredPath).map fun module =>
      { name := module, path := requiredPath,
        installPath := pathJoin requiredPath module }

/-- The sequence of parsed plugin records produced by the body of
`getInstalledPlugins` (lines 126-146), before deduplication: candidates
are filtered by the `homebridge-` name prefix (line 127; the `async`
filter on line 128 returns a promise, which is always truthy, so it
passes every candidate through), then the manifest is read (`none` means
`fs.readJson` threw and the catch on line 147 skips the candidate), the
`homebridge-plugin` keyword is required (line 135), and the survivor is
parsed.  The concurrent `Promise.all` is modelled by source order. -/
def discoveredPlugins (env : DiscoveryEnv) : List HomebridgePlugin :=
  ((getInstalledModules env).filter fun m =>
      strStartsWith m.name "homebridge-").filterMap fun m =>
    match env.manifestAt m.installPath with
    | none => none
    | some pjson =>
      if (pjson.keywords.getD []).contains "homebridge-plugin" then
        some (parsePackageJson env pjson m.path)
      else none

/-- `x => plugin.name === x.name` (line 140). -/
def nameMatch (plugin x : HomebridgePlugin) : Bool := plugin.name == x.name

/-- `x => plugin.name === x.name && x.globalInstall === true` (lines 142-143). -/
def globalMatch (plugin x : HomebridgePlugin) : Bool :=
  plugin.name == x.name && x.globalInstall == some true

/-- Lines 139-145: push the parsed plugin unless a record with the same name
already exists; a non-global (custom-path) plugin replaces an existing
global record with the same name. -/
def dedupInsert (plugins : List HomebridgePlugin)
    (plugin : HomebridgePlugin) : List HomebridgePlugin :=
  if (plugins.find? (nameMatch plugin)).isNone then
    plugins ++ [plugin]
  else if !(plugin.globalInstall == some true)
      && (plugins.find? (globalMatch plugin)).isSome then
    plugins.set (plugins.findIdx (globalMatch plugin)) plugin
  else
    plugins

/-- `updateAvailable` viewed as a sort key (in every record produced by
discovery the field is assigned, so `none` never occurs there). -/
def updAvail (p : HomebridgePlugin) : Bool := p.updateAvailable == some true

/-- The comparator of `_.orderBy(plugins, ['updateAvailable', 'name'],
['desc', 'asc'])` (line 153): update-available descending, then name
ascending. -/
def pluginLE (a b : HomebridgePlugin) : Bool :=
  if updAvail a = updAvail b then strLe a.name b.name else updAvail a

/-- The stable sort applied by line 153 (lodash `orderBy` is a stable sort
by the comparator above; insertion sort is stable for the same comparator). -/
def sortPlugins (l : List HomebridgePlugin) : List HomebridgePlugin :=
  List.insertionSort (fun a b => pluginLE a b = true) l

/-- `getInstalledPlugins` (lines 121-154). -/
def getInstalledPlugins (env : DiscoveryEnv) : List HomebridgePlugin :=
  sortPlugins ((discoveredPlugins env).foldl dedupInsert [])

/-- `getOutOfDatePlugins` (lines 159-162). -/
def getOutOfDatePlugins (env : DiscoveryEnv) : List HomebridgePlugin :=
  (getInstalledPlugins env).filter fun x => x.updateAvailable == some true

/-! ## Command Runner (`runNpmCommand`, lines 635-697) -/

/-- One event pushed to the client's output sink.  Every emission in the
source is `client.emit('stdout', text)`; the constructors record which
`bash-color` wrapper (if any) the text was passed through, which is how
warnings, diagnostics and the success message are distinguished on the
wire. -/
inductive SinkEvent where
  | plain (s : String)
  | yellow (s : String)
  | cyan (s : String)
  | green (s : String)
deriving DecidableEq, Repr

/-- Configuration and environment read by `runNpmCommand`.
`writeAccess cwd` models `fs.access(cwd, fs.constants.W_OK)` succeeding. -/
structure RunEnv where
  sudoMode : Bool := false  -- `configService.ui.sudo` (`sudo` is reserved here)
  writeAccess : String → Bool := fun _ => true
  username : String := "user"
  nodeSatisfies : Bool := true
  minimumNodeVersion : String := "8.15.1"
  serviceName : String := "homebridge-config-ui-x"
  nodeVersion : String := "v10.0.0"

/-- Observable behaviour of the spawned pseudo-terminal process: the data
chunks it emitted, in arrival order, followed by its exit code.  The
5-minute timeout only sends `SIGTERM` (lines 693-695); the resulting exit
event is part of this behaviour, so wall-clock time is not modelled. -/
structure TermResult where
  chunks : List String := []
  exitCode : Int := 0

/-- The five warning lines emitted when the write-access probe fails
(lines 647-651). -/
def accessWarnEvents (env : RunEnv) (cwd : String) : List SinkEvent :=
  [ .yellow ("The user \"" ++ env.username
      ++ "\" does not have write access to the target directory:\n\r\n\r"),
    .plain (cwd ++ "\n\r\n\r"),
    .yellow "This may cause the operation to fail.\n\r",
    .yellow "See the docs for details on how to enable sudo mode:\n\r",
    .yellow "https://github.com/oznu/homebridge-config-ui-x#sudo-mode\n\r\n\r" ]

/-- The Node.js compatibility warning (lines 657-660). -/
def nodeVersionEvents (env : RunEnv) : List SinkEvent :=
  if env.nodeSatisfies then []
  else
    [ .yellow ("Node.js v" ++ env.minimumNodeVersion
        ++ " higher is required for " ++ env.serviceName ++ ".\n\r"),
      .yellow ("You may experience issues while running on Node.js "
        ++ env.nodeVersion ++ ".\n\r\n\r") ]

/-- The USER/DIR/CMD diagnostic lines (lines 662-664). -/
def diagEvents (env : RunEnv) (fullCmd : List String) (cwd : String) :
    List SinkEvent :=
  [ .cyan ("USER: " ++ env.username ++ "\n\r"),
    .cyan ("DIR: " ++ cwd ++ "\n\r"),
    .cyan ("CMD: " ++ String.intercalate " " fullCmd ++ "\n\r\n\r") ]

/-- `command.filter(x => x.length)` (line 637) followed by the sudo prefix
(line 641). -/
def effectiveCommand (env : RunEnv) (command : List String) : List String :=
  let cmd0 := command.filter fun x => x.length != 0
  if env.sudoMode then "sudo" :: "-E" :: "-n" :: cmd0 else cmd0

/-- Everything emitted to the sink before the process produces output:
the write-access warnings (only when sudo mode is off and the probe
fails, lines 640-653), the Node.js version warning, and the diagnostic
lines. -/
def runPreamble (env : RunEnv) (command : List String) (cwd : String) :
    List SinkEvent :=
  (if env.sudoMode then []
   else if env.writeAccess cwd then []
   else accessWarnEvents env cwd)
  ++ nodeVersionEvents env
  ++ diagEvents env (effectiveCommand env command) cwd

/-- `color.green('\n\rCommand succeeded!.\n\r')` (line 684). -/
def successEvent : SinkEvent := .green "\n\rCommand succeeded!.\n\r"

/-- The rejection message of line 688. -/
def commandFailedMsg : String := "Command failed. Please review log for details."

/-- `runNpmCommand` (lines 635-697): everything emitted to the sink, and the
promise outcome decided by the exit event (lines 681-690). -/
def runNpmCommand (env : RunEnv) (command : List String) (cwd : String)
    (term : TermResult) : List SinkEvent × Except String Unit :=
  if term.exitCode = 0 then
    (runPreamble env command cwd ++ term.chunks.map SinkEvent.plain
      ++ [successEvent], .ok ())
  else
    (runPreamble env command cwd ++ term.chunks.map SinkEvent.plain,
     .error commandFailedMsg)

/-! ## Config schema retrieval (`getPluginConfigSchema`, lines 417-443) -/

/-- The parts of a `config.schema.json` document that the service touches
(`schema.properties.port.default` and `schema.properties.pin.default`),
plus the rest of the document, which is returned untouched. -/
structure ConfigSchema where
  portDefault : Option Nat := none
  pinDefault : Option String := none
  body : String := ""
deriving DecidableEq, Repr

/-- Environment of `getPluginConfigSchema`.  `schemaFileAt p n` models
`fs.pathExists`/`fs.readJson` of `path.resolve(p, n, 'config.schema.json')`
(`none` when the file does not exist). -/
structure SchemaEnv where
  serviceName : String := "homebridge-config-ui-x"
  uiPort : Nat := 8080
  bridgePin : String := "031-45-154"
  schemaFileAt : Option String → String → Option ConfigSchema := fun _ _ => none

/-- Lines 430-432: set the console's own listening port as the schema's
port default when the requested plugin is the console itself. -/
def applyPortDefault (env : SchemaEnv) (pluginName : String)
    (cs : ConfigSchema) : ConfigSchema :=
  if pluginName = env.serviceName then
    { cs with portDefault := some env.uiPort }
  else cs

/-- Lines 435-437: set the bridge pin as the schema's pin default for the
legacy `homebridge-alexa` plugin. -/
def applyPinDefault (env : SchemaEnv) (pluginName : String)
    (cs : ConfigSchema) : ConfigSchema :=
  if pluginName = "homebridge-alexa" then
    { cs with pinDefault := some env.bridgePin }
  else cs

/-- `getPluginConfigSchema` (lines 417-443).  `installedPlugins` is the
cached discovery result; `Except.error ()` models `NotFoundException`. -/
def getPluginConfigSchema (env : SchemaEnv)
    (installedPlugins : List HomebridgePlugin) (pluginName : String) :
    Except Unit ConfigSchema :=
  match installedPlugins.find? (fun x => x.name == pluginName) with
  | none => .error ()
  | some plugin =>
    match env.schemaFileAt plugin.installPath pluginName with
    | none => .error ()
    | some configSchema =>
      .ok (applyPinDefault env pluginName
        (applyPortDefault env pluginName configSchema))

/-! ## Path Resolver (`getBasePaths`, lines 548-579) -/

/-- `os.platform()`, as far as the service distinguishes it. -/
inductive Platform where
  | win32
  | posix
deriving DecidableEq, Repr

/-- `path.delimiter`. -/
def pathDelimiter : Platform → Char
  | .win32 => ';'
  | .posix => ':'

/-- Environment of `getBasePaths`.  `npmGlobalModules` is the output of
`/bin/echo -n "$(npm --no-update-notifier -g prefix)/lib/node_modules"`
(line 571); `existsDir` models `fs.existsSync`. -/
structure PathEnv where
  requireMainPaths : List String := []
  customPluginPath : Option String := none
  nodePath : Option String := none
  platform : Platform := .posix
  appData : String := ""
  npmGlobalModules : String := ""
  existsDir : String → Bool := fun _ => false

/-- Split a character list on a delimiter character (the JS
`String.prototype.split` with a one-character separator, which is what
`NODE_PATH.split(path.delimiter)` performs). -/
def splitChars (delim : Char) : List Char → List Char → List String
  | [], acc => [String.mk acc.reverse]
  | c :: cs, acc =>
    if c = delim then String.mk acc.reverse :: splitChars delim cs []
    else splitChars delim cs (c :: acc)

/-- `s.split(delim)` for a one-character delimiter. -/
def splitOnDelim (delim : Char) (s : String) : List String :=
  splitChars delim s.data []

/-- `_.uniq`: drop duplicates, keeping the first occurrence of each value.
`seen` accumulates the values already kept. -/
def uniqFirstAux (seen : List String) : List String → List String
  | [] => []
  | a :: l =>
    if a ∈ seen then uniqFirstAux seen l
    else a :: uniqFirstAux (a :: seen) l

/-- `_.uniq(paths)` (line 576). -/
def uniqFirst (l : List String) : List String := uniqFirstAux [] l

/-- Line 557: `paths.unshift(customPluginPath)` when configured. -/
def withCustomPath (env : PathEnv) (paths : List String) : List String :=
  match env.customPluginPath with
  | some custom => custom :: paths
  | none => paths

/-- Lines 560-573: a non-empty `NODE_PATH` (split on the path delimiter,
empty entries trimmed) is concatenated in front of the list; otherwise the
platform default locations are pushed at the end.  An unset and an empty
`NODE_PATH` are both falsy in JS. -/
def withNodePathOrDefaults (env : PathEnv) (paths : List String) : List String :=
  if (env.nodePath.getD "") = "" then
    match env.platform with
    | .win32 => paths ++ [env.appData ++ "/npm/node_modules"]
    | .posix => paths ++ ["/usr/local/lib/node_modules", "/usr/lib/node_modules",
        env.npmGlobalModules]
  else
    ((splitOnDelim (pathDelimiter env.platform) (env.nodePath.getD "")).filter
      fun p => p ≠ "") ++ paths

/-- `getBasePaths` (lines 548-579).  Note the order of operations: the
custom plugin path is unshifted onto `require.main.paths` (line 557), but
a non-empty `NODE_PATH` is then concatenated *in front of* that list
(lines 560-563); the final list is deduplicated and filtered to existing
directories (lines 576-578). -/
def getBasePaths (env : PathEnv) : List String :=
  (uniqFirst (withNodePathOrDefaults env
    (withCustomPath env env.requireMainPaths))).filter env.existsDir

/-! ## Exact-name registry lookup (`searchNpmRegistrySingle`, lines 216-260) -/

/-- The `package` property read on line 242.  The npm get-by-name
(packument) response carries no such property, so in real responses this
is absent. -/
structure PackumentPackage where
  date : Option String := none
deriving DecidableEq, Repr

/-- The registry document fields read by `searchNpmRegistrySingle`. -/
structure NpmPackument where
  name : String
  keywords : Option (List String) := none
  distTagLatest : SemVer := ⟨0, 0, 0⟩
  homepage : Option String := none
  bugsUrl : Option String := none
  maintainers : List String := []
  packageField : Option PackumentPackage := none
deriving DecidableEq, Repr

/-- `searchNpmRegistrySingle` (lines 216-260).  `lookup q` models
`rp.get('https://registry.npmjs.org/<q>')` (`none` when the request
throws; the catch on lines 253-259 returns `[]`). -/
def searchNpmRegistrySingle (lookup : String → Option NpmPackument)
    (installedPlugins : List HomebridgePlugin) (query : String) :
    List HomebridgePlugin :=
  match lookup query with
  | none => []
  | some pkg =>
    if !((pkg.keywords.getD []).contains "homebridge-plugin") then []
    else
      match installedPlugins.find? (fun x => x.name == pkg.name) with
      | some p => [p]
      | none =>
        match pkg.packageField with
        | none => []
          -- `pkg.package.date` (line 242) raises a TypeError because the
          -- response has no `package` property; the catch returns []
        | some sub =>
          [{ name := pkg.name,
             certifiedPlugin := strStartsWith pkg.name "@homebridge/homebridge-",
             publicPackage := some true,
             latestVersion := some pkg.distTagLatest,
             lastUpdated := sub.date,
             updateAvailable := some false,
             links := { npm := some ("https://www.npmjs.com/package/" ++ pkg.name),
                        homepage := pkg.homepage,
                        bugs := pkg.bugsUrl },
             author := pkg.maintainers.head? }]

/-! ## Concrete example environments (used by witnesses) -/

/-- A well-formed plugin manifest. -/
def manEx : PackageJson :=
  { name := "homebridge-dummy", keywords := some ["homebridge-plugin"],
    version := some ⟨1, 0, 0⟩ }

/-- A discovery environment in which the same plugin is installed both
globally (under `/g`) and in the custom plugin directory `/custom`. -/
def envEx2 : DiscoveryEnv :=
  { customPluginPath := some "/custom",
    basePaths := ["/g", "/custom"],
    readdir := fun _ => ["homebridge-dummy"],
    manifestAt := fun p =>
      if p = "/g/homebridge-dummy" ∨ p = "/custom/homebridge-dummy" then some manEx
      else none,
    registry := fun _ => none,
    schemaExistsAt := fun _ _ => false }

/-- The custom-path installation's record in `envEx2`. -/
def customRecEx : HomebridgePlugin := parsePackageJson envEx2 manEx "/custom"

/-- The global installation's record in `envEx2`. -/
def globalRecEx : HomebridgePlugin := parsePackageJson envEx2 manEx "/g"

/-- Records of the sorting example: update-available `[true, false, true]`,
names `"b"`, `"a"`, `"c"`. -/
def recB : HomebridgePlugin := { name := "b", updateAvailable := some true }

def recA : HomebridgePlugin := { name := "a", updateAvailable := some false }

def recC : HomebridgePlugin := { name := "c", updateAvailable := some true }

/-- A registry with one known package at version 2.0.0. -/
def registryEx : String → Option RegistryPkg := fun n =>
  if n = "homebridge-dummy" then some { latest := ⟨2, 0, 0⟩ } else none

/-- An installed record of that package at version 1.0.0. -/
def pluginEx : HomebridgePlugin :=
  { name := "homebridge-dummy", installedVersion := some ⟨1, 0, 0⟩ }

/-- The same record with no installed version known. -/
def pluginExNoVer : HomebridgePlugin := { name := "homebridge-dummy" }

/-- A run environment with sudo mode off and no write access anywhere. -/
def runEnvEx : RunEnv := { sudoMode := false, writeAccess := fun _ => false }

/-- A schema environment holding one schema file for the console's own
plugin, which is also the one installed plugin. -/
def ownPluginEx : HomebridgePlugin :=
  { name := "homebridge-config-ui-x", installPath := some "/g" }

def schemaEnvEx : SchemaEnv :=
  { serviceName := "homebridge-config-ui-x", uiPort := 8581,
    schemaFileAt := fun p n =>
      if p = some "/g" ∧ n = "homebridge-config-ui-x" then
        some { portDefault := some 8080, body := "schema" }
      else none }

/-- A path environment refuting C9: `NODE_PATH` is set to an existing
directory, so the configured custom plugin path is not first. -/
def cexPathEnv : PathEnv :=
  { requireMainPaths := [], customPluginPath := some "/custom",
    nodePath := some "/np", platform := .posix, appData := "",
    npmGlobalModules := "/gmods",
    existsDir := fun s => s == "/np" || s == "/custom" }

/-- A path environment satisfying the amended C9: custom path configured
and existing, no `NODE_PATH` override. -/
def okPathEnv : PathEnv :=
  { requireMainPaths := ["/r"], customPluginPath := some "/custom",
    nodePath := none, platform := .posix, appData := "",
    npmGlobalModules := "/gmods",
    existsDir := fun s => s == "/custom" || s == "/r" }

/-- A packument that exists in the registry but lacks the
`homebridge-plugin` keyword. -/
def packumentEx : NpmPackument :=
  { name := "homebridge-dummy", keywords := some ["not-a-plugin"] }

def lookupEx : String → Option NpmPackument := fun q =>
  if q = "homebridge-dummy" then some packumentEx else none

/-! ## Helper lemmas -/

theorem charListLe_total : ∀ (as bs : List Char),
    charListLe as bs = true ∨ charListLe bs as = true := by
  intro as
  induction as with
  | nil => intro bs; left; rfl
  | cons a at' ih =>
    intro bs
    cases bs with
    | nil => right; rfl
    | cons b bt =>
      simp only [charListLe]
      rcases Nat.lt_trichotomy a.toNat b.toNat with h | h | h
      · left; simp [h]
      · have h' : ¬ a.toNat < b.toNat := by omega
        have h'' : ¬ b.toNat < a.toNat := by omega
        rcases ih bt with hle | hle
        · left; simp [h', h'', hle]
        · right; simp [h', h'', hle]
      · right; simp [h, Nat.lt_asymm h]

theorem charListLe_trans : ∀ (as bs cs : List Char),
    charListLe as bs = true → charListLe bs cs = true →
    charListLe as cs = true := by
  intro as
  induction as with
  | nil => intro bs cs _ _; rfl
  | cons a at' ih =>
    intro bs cs h1 h2
    cases bs with
    | nil => simp [charListLe] at h1
    | cons b bt =>
      cases cs with
      | nil => simp [charListLe] at h2
      | cons c ct =>
        simp only [charListLe] at h1 h2 ⊢
        rcases Nat.lt_trichotomy a.toNat b.toNat with hab | hab | hab
        · rcases Nat.lt_trichotomy b.toNat c.toNat with hbc | hbc | hbc
          · simp [show a.toNat < c.toNat by omega]
          · simp [show a.toNat < c.toNat by omega]
          · simp [show ¬ b.toNat < c.toNat by omega,
              show c.toNat < b.toNat by omega] at h2
        · rcases Nat.lt_trichotomy b.toNat c.toNat with hbc | hbc | hbc
          · simp [show a.toNat < c.toNat by omega]
          · have h1' : charListLe at' bt = true := by
              simpa [show ¬ a.toNat < b.toNat by omega,
                show ¬ b.toNat < a.toNat by omega] using h1
            have h2' : charListLe bt ct = true := by
              simpa [show ¬ b.toNat < c.toNat by omega,
                show ¬ c.toNat < b.toNat by omega] using h2
            simp [show ¬ a.toNat < c.toNat by omega,
              show ¬ c.toNat < a.toNat by omega]
            exact ih bt ct h1' h2'
          · simp [show ¬ b.toNat < c.toNat by omega,
              show c.toNat < b.toNat by omega] at h2
        · simp [show ¬ a.toNat < b.toNat by omega,
            show b.toNat < a.toNat by omega] at h1

theorem strLe_total (a b : String) : strLe a b = true ∨ strLe b a = true :=
  charListLe_total a.data b.data

theorem strLe_trans {a b c : String} (h1 : strLe a b = true)
    (h2 : strLe b c = true) : strLe a c = true :=
  charListLe_trans a.data b.data c.data h1 h2

theorem pluginLE_total : ∀ a b, pluginLE a b = true ∨ pluginLE b a = true := by
  intro a b
  unfold pluginLE
  by_cases h : updAvail a = updAvail b
  · simp [h]
    exact strLe_total _ _
  · cases ha : updAvail a <;> cases hb : updAvail b <;> simp_all

theorem pluginLE_trans : ∀ a b c, pluginLE a b = true → pluginLE b c = true →
    pluginLE a c = true := by
  intro a b c h1 h2
  unfold pluginLE at h1 h2 ⊢
  cases ha : updAvail a <;> cases hb : updAvail b <;> cases hc : updAvail c <;>
    simp_all
  · exact strLe_trans h1 h2
  · exact strLe_trans h1 h2

theorem findIdx_spec {α : Type} (q : α → Bool) :
    ∀ (l : List α), (l.find? q).isSome = true →
      ∃ x, l[l.findIdx q]? = some x ∧ q x = true := by
  intro l
  induction l with
  | nil => intro h; simp [List.find?] at h
  | cons a t ih =>
    intro h
    by_cases ha : q a
    · exact ⟨a, by simp [List.findIdx_cons, ha], ha⟩
    · have h' : (t.find? q).isSome = true := by
        simpa [List.find?_cons, ha] using h
      obtain ⟨x, hx, hqx⟩ := ih h'
      refine ⟨x, ?_, hqx⟩
      simp [List.findIdx_cons, ha, hx]

theorem set_self_of_getElem? {α : Type} :
    ∀ (l : List α) (i : Nat) (a : α),
      l[i]? = some a → l.set i a = l := by
  intro l
  induction l with
  | nil => intro i a h; simp at h
  | cons b t ih =>
    intro i a h
    cases i with
    | zero => simp at h; simp [h]
    | succ j =>
      simp at h
      simp [List.set_cons_succ, ih j a h]

theorem filter_set_of_not {α : Type} (p : α → Bool) :
    ∀ (l : List α) (i : Nat) (x a : α),
      l[i]? = some x → p x = false → p a = false →
      (l.set i a).filter p = l.filter p := by
  intro l
  induction l with
  | nil => intro i x a h; simp at h
  | cons b t ih =>
    intro i x a h hx ha
    cases i with
    | zero =>
      simp at h
      subst h
      simp [List.filter_cons, hx, ha]
    | succ j =>
      simp at h
      simp [List.set_cons_succ, List.filter_cons, ih j x a h hx ha]

theorem filter_set_singleton {α : Type} (p : α → Bool) :
    ∀ (l : List α) (i : Nat) (x a : α),
      l[i]? = some x → p x = true → p a = true →
      l.filter p = [x] →
      (l.set i a).filter p = [a] := by
  intro l
  induction l with
  | nil => intro i x a h; simp at h
  | cons b t ih =>
    intro i x a h hx ha hl
    cases i with
    | zero =>
      simp at h
      subst h
      simp only [List.filter_cons, hx, if_pos] at hl
      simp only [List.set_cons_zero, List.filter_cons, ha, if_pos]
      simp at hl ⊢
      exact hl
    | succ j =>
      simp at h
      by_cases hb : p b
      · exfalso
        have hxt : x ∈ t := List.getElem?_mem h
        simp only [List.filter_cons, hb, if_pos] at hl
        simp at hl
        rcases hl with ⟨hbx, hnil⟩
        have := hnil x hxt
        rw [hx] at this
        simp at this
      · simp only [List.filter_cons, hb] at hl
        simp only [List.set_cons_succ, List.filter_cons, hb]
        simp at hl ⊢
        exact ih j x a h hx ha hl

/-- Records of `l` carrying the name `n`. -/
def filterNamed (n : String) (l : List HomebridgePlugin) : List HomebridgePlugin :=
  l.filter fun x => x.name == n

theorem mem_dedupInsert {l : List HomebridgePlugin} {p x : HomebridgePlugin}
    (h : x ∈ dedupInsert l p) : x ∈ l ∨ x = p := by
  unfold dedupInsert at h
  split_ifs at h
  · rcases List.mem_append.mp h with h' | h'
    · exact Or.inl h'
    · simp at h'
      exact Or.inr h'
  · exact List.mem_or_eq_of_mem_set h
  · exact Or.inl h

theorem mem_foldl_dedupInsert :
    ∀ (seq acc : List HomebridgePlugin) (x : HomebridgePlugin),
      x ∈ seq.foldl dedupInsert acc → x ∈ acc ∨ x ∈ seq := by
  intro seq
  induction seq with
  | nil => intro acc x h; exact Or.inl h
  | cons p rest ih =>
    intro acc x h
    simp only [List.foldl_cons] at h
    rcases ih _ x h with h' | h'
    · rcases mem_dedupInsert h' with h'' | h''
      · exact Or.inl h''
      · exact Or.inr (by simp [h''])
    · exact Or.inr (List.mem_cons_of_mem _ h')

theorem names_nodup_dedupInsert {l : List HomebridgePlugin}
    (p : HomebridgePlugin) (h : (l.map (fun x => x.name)).Nodup) :
    ((dedupInsert l p).map (fun x => x.name)).Nodup := by
  unfold dedupInsert
  split_ifs with h1 h2
  · have hnone : l.find? (nameMatch p) = none := by
      simpa using h1
    have hnotin : p.name ∉ l.map (fun x => x.name) := by
      intro hmem
      rcases List.mem_map.mp hmem with ⟨x, hx, hxn⟩
      have := List.find?_eq_none.mp hnone x hx
      simp [nameMatch, hxn] at this
    simp [List.nodup_append, h, hnotin]
  · have hsome : (l.find? (globalMatch p)).isSome = true :=
      ((Bool.and_eq_true _ _).mp h2).2
    obtain ⟨x, hx, hqx⟩ := findIdx_spec (globalMatch p) l hsome
    have hxn : x.name = p.name := by
      have hb := ((Bool.and_eq_true _ _).mp hqx).1
      exact (beq_iff_eq.mp hb).symm
    rw [List.map_set]
    have hget : (l.map (fun x => x.name))[l.findIdx (globalMatch p)]? =
        some p.name := by
      rw [List.getElem?_map, hx]
      simp [hxn]
    rw [set_self_of_getElem? _ _ _ hget]
    exact h
  · exact h

theorem names_nodup_foldl :
    ∀ (seq acc : List HomebridgePlugin),
      (acc.map (fun x => x.name)).Nodup →
      ((seq.foldl dedupInsert acc).map (fun x => x.name)).Nodup := by
  intro seq
  induction seq with
  | nil => intro acc h; exact h
  | cons p rest ih =>
    intro acc h
    simp only [List.foldl_cons]
    exact ih _ (names_nodup_dedupInsert p h)

theorem isNone_false_of_isSome {α : Type} {o : Option α}
    (h : o.isSome = true) : ¬ o.isNone = true := by
  cases o <;> simp_all

theorem filterNamed_eq_singleton_of_nodup {n : String} :
    ∀ (l : List HomebridgePlugin) (x : HomebridgePlugin),
      (l.map (fun x => x.name)).Nodup → x ∈ l → x.name = n →
      filterNamed n l = [x] := by
  intro l
  induction l with
  | nil => intro x _ hx; simp at hx
  | cons b t ih =>
    intro x hnodup hx hxn
    have hnodup_t : (t.map (fun x => x.name)).Nodup := by
      simp [List.nodup_cons] at hnodup
      exact hnodup.2
    have hb_notin : b.name ∉ t.map (fun x => x.name) := by
      simp [List.nodup_cons] at hnodup
      intro hmem
      rcases List.mem_map.mp hmem with ⟨y, hy, hyn⟩
      exact hnodup.1 y hy hyn
    rcases List.mem_cons.mp hx with hxb | hxt
    · subst hxb
      unfold filterNamed
      rw [List.filter_cons_of_pos (by simp [hxn])]
      have : filterNamed n t = [] := by
        unfold filterNamed
        rw [List.filter_eq_nil_iff]
        intro y hy hyp
        apply hb_notin
        have hyn : y.name = n := by simpa using hyp
        exact List.mem_map.mpr ⟨y, hy, by rw [hyn, hxn]⟩
      unfold filterNamed at this
      rw [this]
    · unfold filterNamed
      rw [List.filter_cons_of_neg ?_]
      · exact ih x hnodup_t hxt hxn
      · simp only [beq_iff_eq]
        intro hbn
        apply hb_notin
        exact List.mem_map.mpr ⟨x, hxt, by rw [hxn, hbn]⟩

theorem filterNamed_dedupInsert_other {l : List HomebridgePlugin}
    {p : HomebridgePlugin} {n : String} (hn : p.name ≠ n) :
    filterNamed n (dedupInsert l p) = filterNamed n l := by
  unfold dedupInsert
  split_ifs with h1 h2
  · unfold filterNamed
    rw [List.filter_append]
    simp [hn]
  · have hsome : (l.find? (globalMatch p)).isSome = true :=
      ((Bool.and_eq_true _ _).mp h2).2
    obtain ⟨x, hx, hqx⟩ := findIdx_spec (globalMatch p) l hsome
    have hxn : x.name = p.name :=
      (beq_iff_eq.mp ((Bool.and_eq_true _ _).mp hqx).1).symm
    unfold filterNamed
    exact filter_set_of_not _ l _ x p hx (by simp [hxn, hn]) (by simp [hn])
  · rfl

theorem filterNamed_dedupInsert_push {l : List HomebridgePlugin}
    {p : HomebridgePlugin} (h1 : (l.find? (nameMatch p)).isNone = true) :
    filterNamed p.name (dedupInsert l p) = [p] := by
  have hnone : l.find? (nameMatch p) = none := by simpa using h1
  have hnil : filterNamed p.name l = [] := by
    unfold filterNamed
    rw [List.filter_eq_nil_iff]
    intro x hx
    have hne := List.find?_eq_none.mp hnone x hx
    simp only [nameMatch, beq_iff_eq] at hne
    simp only [beq_iff_eq]
    exact fun hxe => hne hxe.symm
  unfold dedupInsert
  rw [if_pos h1]
  unfold filterNamed at hnil ⊢
  rw [List.filter_append, hnil]
  simp

theorem filterNamed_dedupInsert_replace {l : List HomebridgePlugin}
    {p : HomebridgePlugin}
    (hnodup : (l.map (fun x => x.name)).Nodup)
    (h1 : ¬ (l.find? (nameMatch p)).isNone = true)
    (h2 : (!(p.globalInstall == some true)
        && (l.find? (globalMatch p)).isSome) = true) :
    filterNamed p.name (dedupInsert l p) = [p] := by
  unfold dedupInsert
  rw [if_neg h1, if_pos h2]
  have hsome : (l.find? (globalMatch p)).isSome = true :=
    ((Bool.and_eq_true _ _).mp h2).2
  obtain ⟨x, hx, hqx⟩ := findIdx_spec (globalMatch p) l hsome
  have hxn : x.name = p.name :=
    (beq_iff_eq.mp ((Bool.and_eq_true _ _).mp hqx).1).symm
  have hxl : x ∈ l := List.getElem?_mem hx
  have huniq : filterNamed p.name l = [x] :=
    filterNamed_eq_singleton_of_nodup l x hnodup hxl hxn
  unfold filterNamed at huniq ⊢
  exact filter_set_singleton _ l _ x p hx (by simp [hxn]) (by simp) huniq

theorem dedupInsert_noop {l : List HomebridgePlugin} {p : HomebridgePlugin}
    (h1 : ¬ (l.find? (nameMatch p)).isNone = true)
    (h2 : ¬ (!(p.globalInstall == some true)
        && (l.find? (globalMatch p)).isSome) = true) :
    dedupInsert l p = l := by
  unfold dedupInsert
  rw [if_neg h1, if_neg h2]

theorem fold_keep_winner (n : String) (c : HomebridgePlugin)
    (hcg : ¬ c.globalInstall = some true) :
    ∀ (seq acc : List HomebridgePlugin),
      (acc.map (fun x => x.name)).Nodup →
      filterNamed n acc = [c] →
      (∀ x ∈ seq, x.name = n → x.globalInstall = some true ∨ x = c) →
      filterNamed n (seq.foldl dedupInsert acc) = [c] := by
  intro seq
  induction seq with
  | nil => intro acc _ hacc _; exact hacc
  | cons p rest ih =>
    intro acc hnodup hacc hseq
    simp only [List.foldl_cons]
    have hnodup' := names_nodup_dedupInsert p hnodup
    have hrest : ∀ x ∈ rest, x.name = n → x.globalInstall = some true ∨ x = c :=
      fun x hx => hseq x (List.mem_cons_of_mem _ hx)
    by_cases hpn : p.name = n
    · have hcf : c ∈ filterNamed n acc := by rw [hacc]; simp
      have hc_mem : c ∈ acc := (List.mem_filter.mp hcf).1
      have hcn : c.name = n := by
        have := (List.mem_filter.mp hcf).2
        simpa using this
      have hfind_some : ¬ (acc.find? (nameMatch p)).isNone = true :=
        isNone_false_of_isSome
          (List.find?_isSome.mpr ⟨c, hc_mem, by simp [nameMatch, hpn, hcn]⟩)
      rcases hseq p (List.mem_cons_self _ _) hpn with hpg | hpc
      · have hcond : ¬ (!(p.globalInstall == some true)
            && (acc.find? (globalMatch p)).isSome) = true := by
          simp [hpg]
        rw [dedupInsert_noop hfind_some hcond]
        exact ih acc hnodup hacc hrest
      · subst hpc
        have hgm : acc.find? (globalMatch p) = none := by
          rw [List.find?_eq_none]
          intro y hy hgy
          have hyn : y.name = n := by
            have hb := ((Bool.and_eq_true _ _).mp hgy).1
            rw [← hpn]
            exact (beq_iff_eq.mp hb).symm
          have hyg := ((Bool.and_eq_true _ _).mp hgy).2
          have hymem : y ∈ filterNamed n acc :=
            List.mem_filter.mpr ⟨hy, by simp [hyn]⟩
          rw [hacc] at hymem
          simp at hymem
          subst hymem
          exact hcg (by simpa using hyg)
        have hcond : ¬ (!(p.globalInstall == some true)
            && (acc.find? (globalMatch p)).isSome) = true := by
          simp [hgm]
        rw [dedupInsert_noop hfind_some hcond]
        exact ih acc hnodup hacc hrest
    · rw [show dedupInsert acc p = dedupInsert acc p from rfl] at hnodup'
      refine ih (dedupInsert acc p) hnodup' ?_ hrest
      rw [filterNamed_dedupInsert_other hpn]
      exact hacc

theorem fold_custom_wins (n : String) (c : HomebridgePlugin)
    (hcn : c.name = n) (hcg : ¬ c.globalInstall = some true) :
    ∀ (seq acc : List HomebridgePlugin),
      (acc.map (fun x => x.name)).Nodup →
      (∀ x ∈ acc, x.name = n → x.globalInstall = some true) →
      c ∈ seq →
      (∀ x ∈ seq, x.name = n → ¬ x.globalInstall = some true → x = c) →
      filterNamed n (seq.foldl dedupInsert acc) = [c] := by
  intro seq
  induction seq with
  | nil => intro acc _ _ hc _; simp at hc
  | cons p rest ih =>
    intro acc hnodup haccg hcseq huniq
    simp only [List.foldl_cons]
    have hnodup' := names_nodup_dedupInsert p hnodup
    have hrest_uniq : ∀ x ∈ rest, x.name = n →
        ¬ x.globalInstall = some true → x = c :=
      fun x hx => huniq x (List.mem_cons_of_mem _ hx)
    by_cases hpc : p = c
    · subst hpc
      have hstate : filterNamed n (dedupInsert acc p) = [p] := by
        cases hfind : (acc.find? (nameMatch p)).isNone with
        | true =>
          rw [← hcn]
          exact filterNamed_dedupInsert_push hfind
        | false =>
          have h1 : ¬ (acc.find? (nameMatch p)).isNone = true := by
            simp [hfind]
          have hfsome : (acc.find? (nameMatch p)).isSome = true := by
            cases hval : acc.find? (nameMatch p) with
            | none => rw [hval] at hfind; simp at hfind
            | some y => simp
          obtain ⟨y, hy, hqy⟩ := List.find?_isSome.mp hfsome
          have hyn : y.name = n := by
            rw [← hcn]
            exact (beq_iff_eq.mp (by simpa [nameMatch] using hqy)).symm
          have hyg : y.globalInstall = some true := haccg y hy hyn
          have hgsome : (acc.find? (globalMatch p)).isSome = true :=
            List.find?_isSome.mpr ⟨y, hy, by
              simp [globalMatch, hyg, hyn, hcn]⟩
          have h2 : (!(p.globalInstall == some true)
              && (acc.find? (globalMatch p)).isSome) = true := by
            have hgf : (p.globalInstall == some true) = false := by
              simpa using hcg
            simp [hgf, hgsome]
          rw [← hcn]
          exact filterNamed_dedupInsert_replace hnodup h1 h2
      refine fold_keep_winner n p hcg rest (dedupInsert acc p) hnodup' hstate ?_
      intro x hx hxn
      by_cases hg : x.globalInstall = some true
      · exact Or.inl hg
      · exact Or.inr (hrest_uniq x hx hxn hg)
    · have hcrest : c ∈ rest := by
        rcases List.mem_cons.mp hcseq with h | h
        · exact absurd h.symm hpc
        · exact h
      have haccg' : ∀ x ∈ dedupInsert acc p, x.name = n →
          x.globalInstall = some true := by
        intro x hx hxn
        rcases mem_dedupInsert hx with h | h
        · exact haccg x h hxn
        · subst h
          by_cases hg : x.globalInstall = some true
          · exact hg
          · exact absurd (huniq x (List.mem_cons_self _ _) hxn hg) hpc
      exact ih (dedupInsert acc p) hnodup' haccg' hcrest hrest_uniq

theorem green_notin_preamble (env : RunEnv) (command : List String)
    (cwd s : String) : SinkEvent.green s ∉ runPreamble env command cwd := by
  unfold runPreamble accessWarnEvents nodeVersionEvents diagEvents
  intro h
  split_ifs at h <;> simp_all

/-! ## Claim theorems -/

/-- C3: for every plugin record enriched by `getPluginFromNpm`, the
`updateAvailable` flag is true iff the installed version is semver-strictly
less than the latest registry version; when no installed version is known,
`updateAvailable` is false. -/
theorem c3_updateAvailable_iff_semverLt :
    ∀ (registry : String → Option RegistryPkg) (plugin : HomebridgePlugin)
      (pkg : RegistryPkg), registry plugin.name = some pkg →
      (∀ v, plugin.installedVersion = some v →
        ((getPluginFromNpm registry plugin).updateAvailable = some true ↔
          semverLt v pkg.latest = true)) ∧
      (plugin.installedVersion = none →
        (getPluginFromNpm registry plugin).updateAvailable = some false) := by
  intro registry plugin pkg hreg
  constructor
  · intro v hv
    unfold getPluginFromNpm
    rw [hreg, hv]
    simp
  · intro hv
    unfold getPluginFromNpm
    rw [hreg, hv]

/-- Witness for C3: a registry knowing version 2.0.0 of a plugin installed
at 1.0.0 yields `updateAvailable = true`; with no installed version it
yields `false`. -/
theorem c3_witness :
    (getPluginFromNpm registryEx pluginEx).updateAvailable = some true ∧
    (getPluginFromNpm registryEx pluginExNoVer).updateAvailable = some false :=
  ⟨((c3_updateAvailable_iff_semverLt registryEx pluginEx ⟨⟨2, 0, 0⟩, none, none, []⟩
      (by decide)).1 ⟨1, 0, 0⟩ (by decide)).mpr (by decide),
   (c3_updateAvailable_iff_semverLt registryEx pluginExNoVer
      ⟨⟨2, 0, 0⟩, none, none, []⟩ (by decide)).2 (by decide)⟩

/-- C4: a registry failure (network error or 404) for a single package does
not abort discovery: `getPluginFromNpm` still returns a record for that
plugin, with `publicPackage = false`, no `latestVersion`,
`updateAvailable = false` and an empty link set; and the record of such a
package still appears in the discovered batch. -/
theorem c4_registry_failure_degrades :
    (∀ (registry : String → Option RegistryPkg) (plugin : HomebridgePlugin),
      registry plugin.name = none →
      (getPluginFromNpm registry plugin).name = plugin.name ∧
      (getPluginFromNpm registry plugin).publicPackage = some false ∧
      (getPluginFromNpm registry plugin).latestVersion = none ∧
      (getPluginFromNpm registry plugin).updateAvailable = some false ∧
      (getPluginFromNpm registry plugin).links = emptyLinks) ∧
    (∀ (env : DiscoveryEnv) (m : ModuleRef) (pj : PackageJson),
      m ∈ getInstalledModules env →
      strStartsWith m.name "homebridge-" = true →
      env.manifestAt m.installPath = some pj →
      (pj.keywords.getD []).contains "homebridge-plugin" = true →
      env.registry pj.name = none →
      parsePackageJson env pj m.path ∈ discoveredPlugins env ∧
      (parsePackageJson env pj m.path).publicPackage = some false) := by
  constructor
  · intro registry plugin hreg
    unfold getPluginFromNpm
    rw [hreg]
    exact ⟨rfl, rfl, rfl, rfl, rfl⟩
  · intro env m pj hm hpre hman hkw hreg
    constructor
    · unfold discoveredPlugins
      apply List.mem_filterMap.mpr
      refine ⟨m, List.mem_filter.mpr ⟨hm, hpre⟩, ?_⟩
      rw [hman]
      have hkw' : "homebridge-plugin" ∈ pj.keywords.getD [] := by simpa using hkw
      simp [hkw']
    · unfold parsePackageJson getPluginFromNpm
      simp [hreg]

/-- Witness for C4: with every registry request failing, the plugin of
`envEx2` is still discovered and carries the degraded fields. -/
theorem c4_witness :
    (customRecEx ∈ discoveredPlugins envEx2 ∧
      customRecEx.publicPackage = some false) ∧
    (getPluginFromNpm envEx2.registry customRecEx).links = emptyLinks :=
  ⟨(c4_registry_failure_degrades.2 envEx2
      ⟨"homebridge-dummy", "/custom", "/custom/homebridge-dummy"⟩ manEx
      (by decide) (by decide) (by decide) (by decide) (by decide)),
   ((c4_registry_failure_degrades.1 envEx2.registry customRecEx (by decide)).2.2.2.2)⟩

/-- C10: if the registry's package document lacks a `keywords` field or its
keywords do not include `homebridge-plugin`, the exact-name lookup returns
an empty list (no error, no record), even though the package exists. -/
theorem c10_keyword_missing_returns_empty :
    ∀ (lookup : String → Option NpmPackument)
      (installedPlugins : List HomebridgePlugin) (query : String)
      (pkg : NpmPackument),
      lookup query = some pkg →
      ((pkg.keywords.getD []).contains "homebridge-plugin") = false →
      searchNpmRegistrySingle lookup installedPlugins query = [] := by
  intro lookup installed query pkg hl hk
  unfold searchNpmRegistrySingle
  rw [hl]
  have hk' : "homebridge-plugin" ∉ pkg.keywords.getD [] := by simpa using hk
  simp [hk']

/-- Witness for C10: a packument that exists but carries the wrong keyword
list produces an empty result. -/
theorem c10_witness :
    searchNpmRegistrySingle lookupEx [] "homebridge-dummy" = [] :=
  c10_keyword_missing_returns_empty lookupEx [] "homebridge-dummy" packumentEx
    (by decide) (by decide)

/-- C6: if the spawned process exits with code 0, `runNpmCommand` resolves
as success and the success message is emitted after all output chunks; on
any non-zero exit code it rejects with the generic failure message and no
success message is emitted. -/
theorem c6_exit_code_semantics :
    ∀ (env : RunEnv) (command : List String) (cwd : String) (term : TermResult),
      (term.exitCode = 0 →
        runNpmCommand env command cwd term =
          (runPreamble env command cwd ++ term.chunks.map SinkEvent.plain
            ++ [successEvent], Except.ok ())) ∧
      (term.exitCode ≠ 0 →
        (runNpmCommand env command cwd term).2 = Except.error commandFailedMsg ∧
        successEvent ∉ (runNpmCommand env command cwd term).1) := by
  intro env command cwd term
  constructor
  · intro h0
    unfold runNpmCommand
    rw [if_pos h0]
  · intro hne
    unfold runNpmCommand
    rw [if_neg hne]
    refine ⟨rfl, ?_⟩
    intro hmem
    rcases List.mem_append.mp hmem with h | h
    · exact green_notin_preamble env command cwd _ h
    · rcases List.mem_map.mp h with ⟨a, _, ha⟩
      simp [successEvent] at ha

/-- Witness for C6: a command exiting 0 succeeds with a trailing success
message; one exiting 1 fails. -/
theorem c6_witness :
    runNpmCommand runEnvEx ["npm"] "/cwd" { chunks := ["out"], exitCode := 0 } =
      (runPreamble runEnvEx ["npm"] "/cwd" ++ [SinkEvent.plain "out"]
        ++ [successEvent], Except.ok ()) ∧
    (runNpmCommand runEnvEx ["npm"] "/cwd" { chunks := ["out"], exitCode := 1 }).2 =
      Except.error commandFailedMsg :=
  ⟨(c6_exit_code_semantics runEnvEx ["npm"] "/cwd"
      { chunks := ["out"], exitCode := 0 }).1 (by decide),
   ((c6_exit_code_semantics runEnvEx ["npm"] "/cwd"
      { chunks := ["out"], exitCode := 1 }).2 (by decide)).1⟩

/-- C7: config-schema retrieval returns NotFound when the plugin is unknown
or no schema file exists alongside it; when the requested plugin is the
console's own package and a schema file exists, the returned schema's port
default equals the configured listening port. -/
theorem c7_schema_notfound_and_port :
    ∀ (env : SchemaEnv) (installedPlugins : List HomebridgePlugin)
      (pluginName : String),
      (installedPlugins.find? (fun x => x.name == pluginName) = none →
        getPluginConfigSchema env installedPlugins pluginName =
          Except.error ()) ∧
      (∀ plugin,
        installedPlugins.find? (fun x => x.name == pluginName) = some plugin →
        env.schemaFileAt plugin.installPath pluginName = none →
        getPluginConfigSchema env installedPlugins pluginName =
          Except.error ()) ∧
      (∀ plugin cs,
        installedPlugins.find? (fun x => x.name == pluginName) = some plugin →
        env.schemaFileAt plugin.installPath pluginName = some cs →
        pluginName = env.serviceName →
        ∃ out, getPluginConfigSchema env installedPlugins pluginName =
          Except.ok out ∧ out.portDefault = some env.uiPort) := by
  intro env installed pluginName
  refine ⟨?_, ?_, ?_⟩
  · intro h
    unfold getPluginConfigSchema
    rw [h]
  · intro plugin h1 h2
    simp only [getPluginConfigSchema, h1, h2]
  · intro plugin cs h1 h2 hname
    simp only [getPluginConfigSchema, h1, h2]
    refine ⟨_, rfl, ?_⟩
    unfold applyPinDefault applyPortDefault
    rw [if_pos hname]
    split_ifs <;> rfl

/-- Witness for C7: the console's own schema comes back with the configured
port as default; an unknown plugin yields NotFound. -/
theorem c7_witness :
    (∃ out, getPluginConfigSchema schemaEnvEx [ownPluginEx]
        "homebridge-config-ui-x" = Except.ok out ∧
        out.portDefault = some 8581) ∧
    getPluginConfigSchema schemaEnvEx [ownPluginEx] "homebridge-nope" =
      Except.error () :=
  ⟨(c7_schema_notfound_and_port schemaEnvEx [ownPluginEx]
      "homebridge-config-ui-x").2.2 ownPluginEx
      { portDefault := some 8080, body := "schema" }
      (by decide) (by decide) (by decide),
   (c7_schema_notfound_and_port schemaEnvEx [ownPluginEx]
      "homebridge-nope").1 (by decide)⟩

/-- C8: when sudo mode is off and the write-access probe on the working
directory fails, `runNpmCommand` emits the warning lines (including the
pointer to the sudo-mode documentation) and still executes the command;
the failed probe alone never causes the operation to fail - the outcome is
decided by the exit code exactly as without the failed probe. -/
theorem c8_warn_and_continue :
    ∀ (env : RunEnv) (command : List String) (cwd : String) (term : TermResult),
      env.sudoMode = false → env.writeAccess cwd = false →
      runNpmCommand env command cwd term =
        (accessWarnEvents env cwd ++ nodeVersionEvents env
          ++ diagEvents env (effectiveCommand env command) cwd
          ++ term.chunks.map SinkEvent.plain
          ++ (if term.exitCode = 0 then [successEvent] else []),
        if term.exitCode = 0 then Except.ok () else Except.error commandFailedMsg) := by
  intro env command cwd term hsudo haccess
  unfold runNpmCommand runPreamble
  rw [hsudo, haccess]
  by_cases h0 : term.exitCode = 0
  · simp [h0, List.append_assoc]
  · simp [h0, List.append_assoc]

/-- Witness for C8: with a failed probe the warnings are emitted and a
0-exit command still succeeds. -/
theorem c8_witness :
    runNpmCommand runEnvEx ["npm"] "/cwd" { chunks := ["out"], exitCode := 0 } =
      (accessWarnEvents runEnvEx "/cwd" ++ nodeVersionEvents runEnvEx
        ++ diagEvents runEnvEx (effectiveCommand runEnvEx ["npm"]) "/cwd"
        ++ [SinkEvent.plain "out"] ++ [successEvent], Except.ok ()) :=
  c8_warn_and_continue runEnvEx ["npm"] "/cwd"
    { chunks := ["out"], exitCode := 0 } (by decide) (by decide)

theorem uniqFirstAux_nodup_and_disjoint :
    ∀ (l seen : List String),
      (uniqFirstAux seen l).Nodup ∧ ∀ x ∈ uniqFirstAux seen l, x ∉ seen := by
  intro l
  induction l with
  | nil => intro seen; exact ⟨List.nodup_nil, by simp [uniqFirstAux]⟩
  | cons a t ih =>
    intro seen
    unfold uniqFirstAux
    split_ifs with ha
    · exact ih seen
    · obtain ⟨hnd, hdisj⟩ := ih (a :: seen)
      refine ⟨?_, ?_⟩
      · rw [List.nodup_cons]
        exact ⟨fun hmem => (hdisj a hmem) (List.mem_cons_self a seen), hnd⟩
      · intro x hx
        rcases List.mem_cons.mp hx with hxa | hxt
        · subst hxa; exact ha
        · exact fun hxs => (hdisj x hxt) (List.mem_cons_of_mem _ hxs)

theorem uniqFirst_cons (a : String) (l : List String) :
    uniqFirst (a :: l) = a :: uniqFirstAux [a] l := by
  unfold uniqFirst uniqFirstAux
  rw [if_neg (List.not_mem_nil a)]
  cases l <;> rfl

/-- C9 counterexample: with `NODE_PATH=/np` set (and `/np` existing on
disk), the configured and existing custom plugin directory `/custom` is in
the resolved list but is not its first element. -/
theorem c9_counterexample :
    cexPathEnv.customPluginPath = some "/custom" ∧
    cexPathEnv.existsDir "/custom" = true ∧
    "/custom" ∈ getBasePaths cexPathEnv ∧
    (getBasePaths cexPathEnv).head? ≠ some "/custom" := by decide

/-- C9 (amended): when a custom plugin directory is configured, no
`NODE_PATH` override is present, and the custom directory exists on disk,
it is the first element of the resolved base-path list; and for every
configuration the returned list contains no duplicates and only
directories that exist on disk. -/
theorem c9_base_paths_amended :
    (∀ (env : PathEnv) (custom : String),
      env.customPluginPath = some custom →
      env.nodePath.getD "" = "" →
      env.existsDir custom = true →
      (getBasePaths env).head? = some custom) ∧
    (∀ env : PathEnv, (getBasePaths env).Nodup ∧
      ∀ p ∈ getBasePaths env, env.existsDir p = true) := by
  constructor
  · intro env custom hcustom hnode hexists
    unfold getBasePaths withNodePathOrDefaults withCustomPath
    rw [hcustom]
    dsimp only
    rw [if_pos hnode]
    cases env.platform with
    | win32 =>
      dsimp only
      rw [List.cons_append, uniqFirst_cons, List.filter_cons_of_pos hexists]
      rfl
    | posix =>
      dsimp only
      rw [List.cons_append, uniqFirst_cons, List.filter_cons_of_pos hexists]
      rfl
  · intro env
    unfold getBasePaths
    constructor
    · exact List.Nodup.filter _ ((uniqFirstAux_nodup_and_disjoint _ []).1)
    · intro p hp
      exact (List.mem_filter.mp hp).2

/-- Witness for the amended C9: with no `NODE_PATH` the existing custom
directory is first. -/
theorem c9_witness :
    (getBasePaths okPathEnv).head? = some "/custom" :=
  c9_base_paths_amended.1 okPathEnv "/custom" (by decide) (by decide) (by decide)

/-- C1: every record in the list returned by `getInstalledPlugins` stems
from a candidate directory whose name begins with `homebridge-`, whose
install path holds a readable manifest, and whose manifest keywords
include `homebridge-plugin`; hence every candidate lacking the prefix,
the manifest, or the keyword contributes nothing to the result. -/
theorem c1_discovery_filter :
    ∀ (env : DiscoveryEnv) (p : HomebridgePlugin),
      p ∈ getInstalledPlugins env →
      ∃ m, m ∈ getInstalledModules env ∧
        strStartsWith m.name "homebridge-" = true ∧
        ∃ pj, env.manifestAt m.installPath = some pj ∧
          (pj.keywords.getD []).contains "homebridge-plugin" = true ∧
          p = parsePackageJson env pj m.path := by
  intro env p hp
  unfold getInstalledPlugins sortPlugins at hp
  have hperm := List.perm_insertionSort (fun a b => pluginLE a b = true)
    ((discoveredPlugins env).foldl dedupInsert [])
  have hp' : p ∈ (discoveredPlugins env).foldl dedupInsert [] :=
    hperm.mem_iff.mp hp
  rcases mem_foldl_dedupInsert _ _ _ hp' with h | h
  · simp at h
  · unfold discoveredPlugins at h
    rcases List.mem_filterMap.mp h with ⟨m, hm, hf⟩
    rcases List.mem_filter.mp hm with ⟨hmm, hpre⟩
    refine ⟨m, hmm, hpre, ?_⟩
    rcases hman : env.manifestAt m.installPath with _ | pj
    · rw [hman] at hf
      simp at hf
    · rw [hman] at hf
      simp at hf
      obtain ⟨hkw', hparse⟩ := hf
      refine ⟨pj, rfl, ?_, hparse.symm⟩
      simpa using hkw'

/-- Witness for C1: the plugin record discovered in `envEx2` stems from a
prefixed candidate with a keyword-bearing manifest. -/
theorem c1_witness :
    ∃ m, m ∈ getInstalledModules envEx2 ∧
      strStartsWith m.name "homebridge-" = true ∧
      ∃ pj, envEx2.manifestAt m.installPath = some pj ∧
        (pj.keywords.getD []).contains "homebridge-plugin" = true ∧
        customRecEx = parsePackageJson envEx2 pj m.path :=
  c1_discovery_filter envEx2 customRecEx (by decide)

/-- C5: the list returned by `getInstalledPlugins` is ordered by
`updateAvailable` descending and then by `name` ascending; in particular
records with update-available `[true, false, true]` and names
`"b"`, `"a"`, `"c"` come out in the order `"b"`, `"c"`, `"a"`. -/
theorem c5_result_ordering :
    (∀ env : DiscoveryEnv,
      List.Pairwise (fun a b => pluginLE a b = true)
        (getInstalledPlugins env)) ∧
    sortPlugins [recB, recA, recC] = [recB, recC, recA] := by
  constructor
  · intro env
    unfold getInstalledPlugins sortPlugins
    haveI : IsTotal HomebridgePlugin (fun a b => pluginLE a b = true) :=
      ⟨pluginLE_total⟩
    haveI : IsTrans HomebridgePlugin (fun a b => pluginLE a b = true) :=
      ⟨pluginLE_trans⟩
    exact List.sorted_insertionSort _ _
  · decide

/-- C2: the collection returned by `getInstalledPlugins` holds at most one
record per package name; and whenever a name is discovered both as a
global install and as a custom-path (non-global) install, the returned
record for that name is the custom-path installation's record, exactly
once. -/
theorem c2_unique_names_custom_wins :
    (∀ env : DiscoveryEnv,
      ((getInstalledPlugins env).map (fun x => x.name)).Nodup) ∧
    (∀ (env : DiscoveryEnv) (n : String) (c g : HomebridgePlugin),
      c ∈ discoveredPlugins env → c.name = n →
      ¬ c.globalInstall = some true →
      (∀ x ∈ discoveredPlugins env, x.name = n →
        ¬ x.globalInstall = some true → x = c) →
      g ∈ discoveredPlugins env → g.name = n → g.globalInstall = some true →
      (getInstalledPlugins env).filter (fun x => x.name == n) = [c]) := by
  constructor
  · intro env
    unfold getInstalledPlugins sortPlugins
    have hperm := List.perm_insertionSort (fun a b => pluginLE a b = true)
      ((discoveredPlugins env).foldl dedupInsert [])
    have hnodup := names_nodup_foldl (discoveredPlugins env) [] (by simp)
    exact ((hperm.map (fun x => x.name)).symm).nodup hnodup
  · intro env n c g hc hcn hcg huniq hg hgn hgg
    have hfold : filterNamed n ((discoveredPlugins env).foldl dedupInsert []) = [c] :=
      fold_custom_wins n c hcn hcg (discoveredPlugins env) [] (by simp)
        (by simp) hc huniq
    unfold getInstalledPlugins sortPlugins
    have hperm := List.perm_insertionSort (fun a b => pluginLE a b = true)
      ((discoveredPlugins env).foldl dedupInsert [])
    have hpf := List.Perm.filter (fun x => x.name == n) hperm
    unfold filterNamed at hfold
    rw [hfold] at hpf
    exact List.perm_singleton.mp hpf

/-- Witness for C2: in `envEx2` the plugin name is installed both globally
and under the custom path, and the returned list carries exactly the
custom-path record. -/
theorem c2_witness :
    (getInstalledPlugins envEx2).filter
      (fun x => x.name == "homebridge-dummy") = [customRecEx] :=
  c2_unique_names_custom_wins.2 envEx2 "homebridge-dummy" customRecEx globalRecEx
    (by decide) (by decide) (by decide) (by decide) (by decide) (by decide)
    (by decide)
